import Mathlib

/-!
Verification of the RunAsUser repository (src/macos/main.c, src/windows/main.c)
against its natural-language specification.

The two C programs are shallowly embedded: every syscall outcome that the
program branches on (privilege syscalls, session queries, fork/exec results,
child status) is a field of an explicit world record, and each program is a
pure function from that world to its final outcome together with the ordered
trace of externally visible actions it performed.  The Windows command-line
codec (`build_command_line`) and the OS's documented argument-splitting
algorithm are embedded as functions on `List Char`.
-/

set_option autoImplicit false

namespace RunAsUser

/-! ### Command-Line Codec: `build_command_line` (src/windows/main.c lines 141-243)

An argument is quoted iff it is empty or contains a space, tab or
double-quote (lines 147-158 / 195-206 of the source). -/

def needsQuoting (a : List Char) : Bool :=
  a.isEmpty || a.any (fun c => c == ' ' || c == '\t' || c == '"')

/-- The quoted-body emission loop of `build_command_line` (second pass, lines
210-229).  `n` is the C variable `numBackslashes`: the length of the current
run of backslashes, each of which has already been emitted.  On a
double-quote the run is doubled and the quote escaped (`2n+1` backslashes in
total); at the end of the argument the trailing run is doubled (`2n`). -/
def qbodyAux : Nat → List Char → List Char
  | n, [] => List.replicate n '\\'
  | n, c :: cs =>
    if c = '\\' then '\\' :: qbodyAux (n + 1) cs
    else if c = '"' then List.replicate n '\\' ++ '\\' :: '"' :: qbodyAux 0 cs
    else c :: qbodyAux 0 cs

/-- Emission of one argument (lines 193-235): quoted form is the body wrapped
in double quotes, unquoted form is the argument verbatim. -/
def encodeArg (a : List Char) : List Char :=
  if needsQuoting a then '"' :: (qbodyAux 0 a ++ ['"']) else a

/-- `build_command_line`: arguments joined with single spaces (line 237-238
puts a space after every argument but the last). -/
def build_command_line : List (List Char) → List Char
  | [] => []
  | [a] => encodeArg a
  | a :: b :: rest => encodeArg a ++ ' ' :: build_command_line (b :: rest)

/-! ### The OS argument splitter

Modelled from the documented rules of the platform's standard
argument-splitting algorithm (`CommandLineToArgvW`), which the source's own
comment (lines 129-139) restates: space and tab separate arguments when not
inside quotes; an unescaped double-quote toggles quoted mode; a run of `2n`
backslashes followed by a double-quote yields `n` backslashes and the quote
toggles quoted mode; a run of `2n+1` backslashes followed by a double-quote
yields `n` backslashes and a literal quote; backslashes not followed by a
double-quote are literal. -/

/-- Consume one argument.  `inQ` is quoted mode, `n` the number of pending
backslashes not yet resolved.  Returns the decoded argument and the rest of
the command line after the argument's terminator. -/
def parseWinTok : Bool → Nat → List Char → List Char × List Char
  | _, n, [] => (List.replicate n '\\', [])
  | inQ, n, c :: cs =>
    if c = '\\' then parseWinTok inQ (n + 1) cs
    else if c = '"' then
      if n % 2 = 0 then
        (List.replicate (n / 2) '\\' ++ (parseWinTok (!inQ) 0 cs).1,
         (parseWinTok (!inQ) 0 cs).2)
      else
        (List.replicate (n / 2) '\\' ++ '"' :: (parseWinTok inQ 0 cs).1,
         (parseWinTok inQ 0 cs).2)
    else if (c = ' ' ∨ c = '\t') ∧ inQ = false then
      (List.replicate n '\\', cs)
    else
      (List.replicate n '\\' ++ c :: (parseWinTok inQ 0 cs).1,
       (parseWinTok inQ 0 cs).2)

theorem parseWinTok_snd_length :
    ∀ (l : List Char) (inQ : Bool) (n : Nat),
      ((parseWinTok inQ n l).2).length ≤ l.length := by
  intro l
  induction l with
  | nil => intro inQ n; simp [parseWinTok]
  | cons c cs ih =>
    intro inQ n
    simp only [parseWinTok]
    by_cases hb : c = '\\'
    · simp only [hb, if_pos rfl]
      exact le_trans (ih _ _) (Nat.le_succ _)
    · simp only [if_neg hb]
      by_cases hq : c = '"'
      · simp only [hq, if_pos rfl]
        by_cases he : n % 2 = 0
        · simp only [if_pos he]
          exact le_trans (ih _ _) (Nat.le_succ _)
        · simp only [if_neg he]
          exact le_trans (ih _ _) (Nat.le_succ _)
      · simp only [if_neg hq]
        by_cases hw : (c = ' ' ∨ c = '\t') ∧ inQ = false
        · simp only [if_pos hw]
          exact Nat.le_succ _
        · simp only [if_neg hw]
          exact le_trans (ih _ _) (Nat.le_succ _)

theorem parseWinTok_snd_lt (inQ : Bool) (n : Nat) (c : Char) (cs : List Char) :
    ((parseWinTok inQ n (c :: cs)).2).length < (c :: cs).length := by
  simp only [parseWinTok, List.length_cons]
  by_cases hb : c = '\\'
  · simp only [hb, if_pos rfl]
    exact Nat.lt_succ_of_le (parseWinTok_snd_length _ _ _)
  · simp only [if_neg hb]
    by_cases hq : c = '"'
    · simp only [hq, if_pos rfl]
      by_cases he : n % 2 = 0
      · simp only [if_pos he]
        exact Nat.lt_succ_of_le (parseWinTok_snd_length _ _ _)
      · simp only [if_neg he]
        exact Nat.lt_succ_of_le (parseWinTok_snd_length _ _ _)
    · simp only [if_neg hq]
      by_cases hw : (c = ' ' ∨ c = '\t') ∧ inQ = false
      · simp only [if_pos hw]
        exact Nat.lt_succ_self _
      · simp only [if_neg hw]
        exact Nat.lt_succ_of_le (parseWinTok_snd_length _ _ _)

/-- Split a whole command line into its argument vector: skip separators,
then consume one argument at a time.  Structured with explicit fuel so the
definition is structural; `splitCmdLine` supplies sufficient fuel, and
`splitCmdLine_cons` recovers the natural recursion equation. -/
def splitCmdLineF : Nat → List Char → List (List Char)
  | 0, _ => []
  | _ + 1, [] => []
  | fuel + 1, c :: cs =>
    if c = ' ' ∨ c = '\t' then splitCmdLineF fuel cs
    else
      (parseWinTok false 0 (c :: cs)).1 :: splitCmdLineF fuel (parseWinTok false 0 (c :: cs)).2

def splitCmdLine (l : List Char) : List (List Char) :=
  splitCmdLineF (l.length + 1) l

theorem splitCmdLineF_fuel :
    ∀ (n m : Nat) (l : List Char), l.length < n → l.length < m →
      splitCmdLineF n l = splitCmdLineF m l := by
  intro n
  induction n with
  | zero => intro m l h _; exact absurd h (Nat.not_lt_zero _)
  | succ n ih =>
    intro m l hn hm
    match m, l with
    | m + 1, [] => rfl
    | m + 1, c :: cs =>
      simp only [splitCmdLineF]
      have hcs : cs.length < n := Nat.lt_of_succ_lt_succ hn
      have hcs' : cs.length < m := Nat.lt_of_succ_lt_succ hm
      by_cases hw : c = ' ' ∨ c = '\t'
      · simp only [if_pos hw]
        exact ih m cs hcs hcs'
      · simp only [if_neg hw]
        have ht : ((parseWinTok false 0 (c :: cs)).2).length < n :=
          Nat.lt_of_lt_of_le (parseWinTok_snd_lt false 0 c cs) (Nat.le_of_lt_succ hn)
        have ht' : ((parseWinTok false 0 (c :: cs)).2).length < m :=
          Nat.lt_of_lt_of_le (parseWinTok_snd_lt false 0 c cs) (Nat.le_of_lt_succ hm)
        rw [ih m _ ht ht']

theorem splitCmdLine_cons (c : Char) (cs : List Char) :
    splitCmdLine (c :: cs) =
      if c = ' ' ∨ c = '\t' then splitCmdLine cs
      else
        (parseWinTok false 0 (c :: cs)).1 ::
          splitCmdLine (parseWinTok false 0 (c :: cs)).2 := by
  show splitCmdLineF (cs.length + 1 + 1) (c :: cs) = _
  simp only [splitCmdLineF]
  by_cases hw : c = ' ' ∨ c = '\t'
  · simp only [if_pos hw]
    exact splitCmdLineF_fuel _ _ cs (Nat.lt_succ_self _) (Nat.lt_succ_self _)
  · simp only [if_neg hw]
    rw [splitCmdLineF_fuel (cs.length + 1) (((parseWinTok false 0 (c :: cs)).2).length + 1) _
      (Nat.lt_of_lt_of_le (parseWinTok_snd_lt false 0 c cs) (Nat.le_refl _))
      (Nat.lt_succ_self _)]
    rfl

example : splitCmdLine ("ab \"c d\"".toList) = ["ab".toList, "c d".toList] := by decide
example : build_command_line ["ab".toList, "c d".toList] = "ab \"c d\"".toList := by decide
example : splitCmdLine (build_command_line [['a', '\\', '"'], [], ['\\', '\\']]) =
    [['a', '\\', '"'], [], ['\\', '\\']] := by decide

/-! ### Round-trip: the splitter inverts `build_command_line` -/

theorem parseWinTok_nil (inQ : Bool) (n : Nat) :
    parseWinTok inQ n [] = (List.replicate n '\\', []) := rfl

theorem parseWinTok_bs (inQ : Bool) (n : Nat) (cs : List Char) :
    parseWinTok inQ n ('\\' :: cs) = parseWinTok inQ (n + 1) cs := by
  simp [parseWinTok]

theorem parseWinTok_quote_even (inQ : Bool) (n : Nat) (cs : List Char) (h : n % 2 = 0) :
    parseWinTok inQ n ('"' :: cs) =
      (List.replicate (n / 2) '\\' ++ (parseWinTok (!inQ) 0 cs).1,
       (parseWinTok (!inQ) 0 cs).2) := by
  simp [parseWinTok, h]

theorem parseWinTok_quote_odd (inQ : Bool) (n : Nat) (cs : List Char) (h : n % 2 = 1) :
    parseWinTok inQ n ('"' :: cs) =
      (List.replicate (n / 2) '\\' ++ '"' :: (parseWinTok inQ 0 cs).1,
       (parseWinTok inQ 0 cs).2) := by
  have h0 : ¬(n % 2 = 0) := by omega
  simp [parseWinTok, h0]

theorem parseWinTok_ws_out (c : Char) (hw : c = ' ' ∨ c = '\t') (n : Nat) (cs : List Char) :
    parseWinTok false n (c :: cs) = (List.replicate n '\\', cs) := by
  have hb : ¬(c = '\\') := by rcases hw with h | h <;> subst h <;> decide
  have hq : ¬(c = '"') := by rcases hw with h | h <;> subst h <;> decide
  simp [parseWinTok, hb, hq, hw]

theorem parseWinTok_char (inQ : Bool) (n : Nat) (c : Char) (cs : List Char)
    (hb : ¬(c = '\\')) (hq : ¬(c = '"')) (hw : ¬((c = ' ' ∨ c = '\t') ∧ inQ = false)) :
    parseWinTok inQ n (c :: cs) =
      (List.replicate n '\\' ++ c :: (parseWinTok inQ 0 cs).1,
       (parseWinTok inQ 0 cs).2) := by
  simp [parseWinTok, hb, hq, hw]

theorem parseWinTok_replicate (k : Nat) :
    ∀ (inQ : Bool) (n : Nat) (rest : List Char),
      parseWinTok inQ n (List.replicate k '\\' ++ rest) = parseWinTok inQ (n + k) rest := by
  induction k with
  | zero => intro inQ n rest; rfl
  | succ k ih =>
    intro inQ n rest
    simp only [List.replicate_succ, List.cons_append]
    rw [parseWinTok_bs, ih]
    congr 1
    omega

theorem replicate_append_cons (n : Nat) (l : List Char) :
    List.replicate n '\\' ++ '\\' :: l = List.replicate (n + 1) '\\' ++ l := by
  simp [List.replicate_succ', List.append_assoc]

/-- Parsing the quoted body: inside quotes with `n` pending backslashes (which
match the `n` already-emitted backslashes of `qbodyAux n a`), consuming the
emitted body up to and including the closing quote recovers the pending
backslashes followed by the original argument, then continues unquoted. -/
theorem parseWinTok_qbodyAux :
    ∀ (a : List Char) (n : Nat) (suffix : List Char),
      parseWinTok true n (qbodyAux n a ++ '"' :: suffix) =
        (List.replicate n '\\' ++ a ++ (parseWinTok false 0 suffix).1,
         (parseWinTok false 0 suffix).2) := by
  intro a
  induction a with
  | nil =>
    intro n suffix
    simp only [qbodyAux]
    rw [parseWinTok_replicate, parseWinTok_quote_even true (n + n) suffix (by omega)]
    have hd : (n + n) / 2 = n := by omega
    simp [hd]
  | cons c cs ih =>
    intro n suffix
    by_cases hb : c = '\\'
    · subst hb
      simp only [qbodyAux, reduceIte, List.cons_append]
      rw [parseWinTok_bs, ih (n + 1) suffix]
      rw [List.append_assoc, ← replicate_append_cons]
      simp [List.append_assoc]
    · by_cases hq : c = '"'
      · subst hq
        simp only [qbodyAux, if_neg hb, reduceIte, List.append_assoc, List.cons_append]
        rw [replicate_append_cons, parseWinTok_replicate,
          parseWinTok_quote_odd true (n + (n + 1)) _ (by omega), ih 0 suffix]
        have hd : (n + (n + 1)) / 2 = n := by omega
        simp [hd, List.append_assoc]
      · simp only [qbodyAux, if_neg hb, if_neg hq, List.cons_append]
        rw [parseWinTok_char true n c _ hb hq (by simp), ih 0 suffix]
        simp [List.append_assoc]

/-- An argument with no space, tab or double-quote parses verbatim up to the
end of input. -/
theorem parseWinTok_plain_nil :
    ∀ (a : List Char) (n : Nat),
      (∀ c ∈ a, ¬(c = ' ') ∧ ¬(c = '\t') ∧ ¬(c = '"')) →
      parseWinTok false n a = (List.replicate n '\\' ++ a, []) := by
  intro a
  induction a with
  | nil => intro n _; simp [parseWinTok_nil]
  | cons c cs ih =>
    intro n h
    obtain ⟨h1, h2, h3⟩ := h c (List.mem_cons_self c cs)
    have hcs : ∀ x ∈ cs, ¬(x = ' ') ∧ ¬(x = '\t') ∧ ¬(x = '"') :=
      fun x hx => h x (List.mem_cons_of_mem c hx)
    by_cases hb : c = '\\'
    · subst hb
      rw [parseWinTok_bs, ih (n + 1) hcs, replicate_append_cons]
    · rw [parseWinTok_char false n c cs hb h3 (by simp [h1, h2]), ih 0 hcs]
      simp

/-- An argument with no space, tab or double-quote parses verbatim up to a
separating space. -/
theorem parseWinTok_plain_sep :
    ∀ (a : List Char) (n : Nat) (tl : List Char),
      (∀ c ∈ a, ¬(c = ' ') ∧ ¬(c = '\t') ∧ ¬(c = '"')) →
      parseWinTok false n (a ++ ' ' :: tl) = (List.replicate n '\\' ++ a, tl) := by
  intro a
  induction a with
  | nil =>
    intro n tl _
    rw [List.nil_append, parseWinTok_ws_out ' ' (Or.inl rfl)]
    simp
  | cons c cs ih =>
    intro n tl h
    obtain ⟨h1, h2, h3⟩ := h c (List.mem_cons_self c cs)
    have hcs : ∀ x ∈ cs, ¬(x = ' ') ∧ ¬(x = '\t') ∧ ¬(x = '"') :=
      fun x hx => h x (List.mem_cons_of_mem c hx)
    by_cases hb : c = '\\'
    · subst hb
      rw [List.cons_append, parseWinTok_bs, ih (n + 1) tl hcs, replicate_append_cons]
    · rw [List.cons_append, parseWinTok_char false n c _ hb h3 (by simp [h1, h2]),
        ih 0 tl hcs]
      simp

theorem needsQuoting_eq_false (a : List Char) :
    needsQuoting a = false ↔
      (a ≠ [] ∧ ∀ c ∈ a, ¬(c = ' ') ∧ ¬(c = '\t') ∧ ¬(c = '"')) := by
  cases a with
  | nil => simp [needsQuoting]
  | cons c cs =>
    simp [needsQuoting, not_or, and_assoc]

/-- Parsing a whole encoded argument at the end of the command line. -/
theorem parseWinTok_encodeArg_nil (a : List Char) :
    parseWinTok false 0 (encodeArg a) = (a, []) := by
  by_cases hq : needsQuoting a
  · rw [encodeArg, if_pos hq, parseWinTok_quote_even false 0 _ rfl]
    have : qbodyAux 0 a ++ ['"'] = qbodyAux 0 a ++ '"' :: ([] : List Char) := rfl
    rw [this]
    simp only [Bool.not_false]
    rw [parseWinTok_qbodyAux a 0 []]
    simp [parseWinTok_nil]
  · rw [encodeArg, if_neg hq]
    have h := (needsQuoting_eq_false a).1 (by simpa using hq)
    rw [parseWinTok_plain_nil a 0 h.2]
    simp

/-- Parsing a whole encoded argument followed by a separating space. -/
theorem parseWinTok_encodeArg_sep (a tl : List Char) :
    parseWinTok false 0 (encodeArg a ++ ' ' :: tl) = (a, tl) := by
  by_cases hq : needsQuoting a
  · rw [encodeArg, if_pos hq]
    have : ('"' :: (qbodyAux 0 a ++ ['"'])) ++ ' ' :: tl =
        '"' :: (qbodyAux 0 a ++ '"' :: (' ' :: tl)) := by
      simp [List.append_assoc]
    rw [this, parseWinTok_quote_even false 0 _ rfl]
    simp only [Bool.not_false]
    rw [parseWinTok_qbodyAux a 0 (' ' :: tl), parseWinTok_ws_out ' ' (Or.inl rfl)]
    simp
  · rw [encodeArg, if_neg hq]
    have h := (needsQuoting_eq_false a).1 (by simpa using hq)
    rw [parseWinTok_plain_sep a 0 tl h.2]
    simp

theorem encodeArg_head (a : List Char) :
    ∃ c cs, encodeArg a = c :: cs ∧ ¬(c = ' ' ∨ c = '\t') := by
  by_cases hq : needsQuoting a
  · exact ⟨'"', qbodyAux 0 a ++ ['"'], by rw [encodeArg, if_pos hq], by decide⟩
  · have h := (needsQuoting_eq_false a).1 (by simpa using hq)
    match a, h.1 with
    | c :: cs, _ =>
      obtain ⟨h1, h2, _⟩ := h.2 c (List.mem_cons_self c cs)
      exact ⟨c, cs, by rw [encodeArg, if_neg hq], by simp [h1, h2]⟩

/-- The round-trip law: the OS splitter decodes `build_command_line`'s output
back to the original argument vector. -/
theorem splitCmdLine_build_command_line :
    ∀ argv : List (List Char), splitCmdLine (build_command_line argv) = argv := by
  intro argv
  induction argv with
  | nil => rfl
  | cons a rest ih =>
    obtain ⟨c, cs, hc, hw⟩ := encodeArg_head a
    cases rest with
    | nil =>
      show splitCmdLine (encodeArg a) = [a]
      rw [hc, splitCmdLine_cons, if_neg hw, ← hc, parseWinTok_encodeArg_nil]
      rfl
    | cons b t =>
      show splitCmdLine (encodeArg a ++ ' ' :: build_command_line (b :: t)) = a :: b :: t
      rw [hc, List.cons_append, splitCmdLine_cons, if_neg hw, ← List.cons_append, ← hc,
        parseWinTok_encodeArg_sep]
      show a :: splitCmdLine (build_command_line (b :: t)) = a :: b :: t
      rw [ih]


/-! ### The documented backslash rules of the encoder -/

theorem qbodyAux_replicate_quote :
    ∀ (N n : Nat) (cs : List Char),
      qbodyAux n (List.replicate N '\\' ++ '"' :: cs) =
        List.replicate N '\\' ++ List.replicate (n + N) '\\' ++ '\\' :: '"' :: qbodyAux 0 cs := by
  intro N
  induction N with
  | zero =>
    intro n cs
    simp [qbodyAux, reduceIte]
  | succ N ih =>
    intro n cs
    simp only [List.replicate_succ, List.cons_append, qbodyAux, reduceIte, List.append_eq]
    rw [ih (n + 1) cs]
    have : n + 1 + N = n + (N + 1) := by omega
    rw [this]

theorem qbodyAux_replicate_nil :
    ∀ (N n : Nat), qbodyAux n (List.replicate N '\\') = List.replicate (N + (n + N)) '\\' := by
  intro N
  induction N with
  | zero => intro n; simp [qbodyAux]
  | succ N ih =>
    intro n
    simp only [List.replicate_succ, qbodyAux, reduceIte]
    rw [ih (n + 1)]
    rw [show ('\\' :: List.replicate (N + (n + 1 + N)) '\\') =
      List.replicate (N + (n + 1 + N) + 1) '\\' from (List.replicate_succ _ _).symm]
    congr 1
    omega

/-- The 2N+1 rule: inside the quoted form, a run of N backslashes directly
before a literal double-quote is emitted as 2N+1 backslashes plus the quote. -/
theorem qbodyAux_quote_rule (N : Nat) (cs : List Char) :
    qbodyAux 0 (List.replicate N '\\' ++ '"' :: cs) =
      List.replicate (2 * N + 1) '\\' ++ '"' :: qbodyAux 0 cs := by
  rw [qbodyAux_replicate_quote N 0 cs, Nat.zero_add,
    show 2 * N + 1 = N + N + 1 from by omega,
    List.replicate_add, List.replicate_add, List.replicate_one]
  simp [List.append_assoc]

/-- The 2N rule: a run of N backslashes at the very end of the argument is
emitted as 2N backslashes (so the closing quote is not escaped). -/
theorem qbodyAux_trailing_rule (N : Nat) :
    qbodyAux 0 (List.replicate N '\\') = List.replicate (2 * N) '\\' := by
  rw [qbodyAux_replicate_nil N 0]
  congr 1
  omega

/-! ### macOS program model (src/macos/main.c)

Every OS interaction the program branches on is a field of `MacWorld`; the
program itself is the pure function `macMain`, returning its outcome and the
ordered trace of actions that took effect. -/

/-- Termination status of a waited-for child (`waitpid` status). -/
inductive ChildStatus where
  | exited (code : Nat)
  | signaled (sig : Nat)
  | stopped
deriving DecidableEq, Repr

/-- The waiting-mode status mapping (lines 325-332 and 156-160):
normal exit propagates the child's code verbatim, death by signal becomes
`128 + signal`, anything else is the general-failure code 1. -/
def waitStatusExit : ChildStatus → Nat
  | .exited k => k
  | .signaled s => 128 + s
  | .stopped => 1

/-- Environment lookup (`getenv`). -/
def envLookup (k : String) : List (String × String) → Option String
  | [] => none
  | (k0, v0) :: e => if k0 = k then some v0 else envLookup k e

/-- `setenv(k, v, 1)`: overwrite the first binding of `k`, or append one. -/
def envSet : List (String × String) → String → String → List (String × String)
  | [], k, v => [(k, v)]
  | (k0, v0) :: e, k, v =>
    if k0 = k then (k, v) :: e else (k0, v0) :: envSet e k v

/-- The fields of `struct passwd` the program reads. -/
structure Passwd where
  pw_name : String
  pw_uid : Nat
  pw_gid : Nat
  pw_dir : String
  pw_shell : String
deriving DecidableEq, Repr

/-- `DEFAULT_PATH` (line 34). -/
def DEFAULT_PATH : String := "/usr/local/bin:/usr/bin:/bin:/usr/sbin:/sbin"

/-- `setup_environment` (lines 211-218): five `setenv` calls with overwrite
on the inherited environment. -/
def setup_environment (pw : Passwd) (env : List (String × String)) :
    List (String × String) :=
  envSet (envSet (envSet (envSet (envSet env
    "HOME" pw.pw_dir)
    "USER" pw.pw_name)
    "LOGNAME" pw.pw_name)
    "SHELL" pw.pw_shell)
    "PATH" DEFAULT_PATH

/-- Externally visible actions of the macOS program, in order. -/
inductive MacEv where
  | sessionQuery
  | initgroupsCall
  | setgidCall
  | setuidCall
  | setuidRootCheck
  | forkCall
  | execCall (prog : String) (argvv : List String) (env : List (String × String))
  | waitCall
deriving DecidableEq, Repr

/-- Final outcome: process exit, or image replaced by `execvp`. -/
inductive MacOutcome where
  | exited (code : Nat)
  | replaced (prog : String) (argvv : List String) (env : List (String × String))
deriving DecidableEq, Repr

/-- Outcomes of the OS calls the macOS program makes, plus its inputs. -/
structure MacWorld where
  /-- argv[1..] -/
  args : List String
  /-- getuid() == 0 -/
  isRoot : Bool
  /-- SCDynamicStoreCopyConsoleUser: name, uid, gid; none models NULL -/
  consoleUser : Option (String × Nat × Nat)
  /-- CFStringGetCString succeeded -/
  cfStringOk : Bool
  /-- get_self_path result -/
  selfPath : Option String
  /-- getpwuid result for the console uid -/
  pwEntry : Option Passwd
  initgroupsOk : Bool
  setgidOk : Bool
  setuidOk : Bool
  /-- the verification call setuid(0) returned 0 -/
  regainRootSucceeds : Bool
  forkOk : Bool
  /-- waitpid eventually succeeds (EINTR retries already folded in) -/
  waitpidOk : Bool
  /-- execvp of the requested command succeeds -/
  execOk : Bool
  /-- execvp of launchctl in the forked child succeeds -/
  launchctlExecOk : Bool
  /-- status of the forked child as observed by waitpid -/
  childStatus : ChildStatus
  /-- the elevated caller:s environment -/
  callerEnv : List (String × String)

/-- Flag-parsing loop of `main` (lines 226-240): stop at the first token that
is none of --wait, --session, --help, -h. -/
inductive ParseOut where
  | help
  | noCmd
  | cmd (fwait fsession : Bool) (rest : List String)
deriving DecidableEq, Repr

def parseFlags : Bool → Bool → List String → ParseOut
  | _, _, [] => .noCmd
  | w, s, a :: rest =>
    if a = "--wait" then parseFlags true s rest
    else if a = "--session" then parseFlags w true rest
    else if a = "--help" ∨ a = "-h" then .help
    else .cmd w s (a :: rest)

/-- `drop_privileges` (lines 173-206): initgroups, then setgid, then setuid,
then the setuid(0) verification; `true` is the 0 (success) return.  The
trace records the calls that were made, in order. -/
def drop_privileges (w : MacWorld) : Bool × List MacEv :=
  if w.initgroupsOk = false then (false, [.initgroupsCall])
  else if w.setgidOk = false then (false, [.initgroupsCall, .setgidCall])
  else if w.setuidOk = false then
    (false, [.initgroupsCall, .setgidCall, .setuidCall])
  else if w.regainRootSucceeds then
    (false, [.initgroupsCall, .setgidCall, .setuidCall, .setuidRootCheck])
  else (true, [.initgroupsCall, .setgidCall, .setuidCall, .setuidRootCheck])

/-- `handle_session` (lines 89-161): re-invoke through
`launchctl asuser <uid> <self> [--wait] <command...>`, fork, exec launchctl
in the child, wait unconditionally, and propagate the status. -/
def handle_session (w : MacWorld) (uid : Nat) (fwait : Bool) (cmd : List String) :
    MacOutcome × List MacEv :=
  match w.selfPath with
  | none => (.exited 1, [])
  | some self =>
    if w.forkOk = false then (.exited 4, [])
    else
      if w.waitpidOk = false then
        (.exited 1,
         [.forkCall,
          .execCall "launchctl"
            (["launchctl", "asuser", toString uid, self] ++
              (if fwait then ["--wait"] else []) ++ cmd) w.callerEnv,
          .waitCall])
      else
        (.exited (waitStatusExit (if w.launchctlExecOk then w.childStatus else .exited 4)),
         [.forkCall,
          .execCall "launchctl"
            (["launchctl", "asuser", toString uid, self] ++
              (if fwait then ["--wait"] else []) ++ cmd) w.callerEnv,
          .waitCall])

/-- `main` (lines 220-339). -/
def macMain (w : MacWorld) : MacOutcome × List MacEv :=
  match parseFlags false false w.args with
  | .help => (.exited 0, [])
  | .noCmd => (.exited 5, [])
  | .cmd fwait fsession cmd =>
    if w.isRoot = false then (.exited 1, [])
    else
      match w.consoleUser with
      | none => (.exited 2, [.sessionQuery])
      | some (uname, uid, _) =>
        if w.cfStringOk = false ∨ uname = "loginwindow" then (.exited 2, [.sessionQuery])
        else if fsession then
          ((handle_session w uid fwait cmd).1,
           .sessionQuery :: (handle_session w uid fwait cmd).2)
        else
          match w.pwEntry with
          | none => (.exited 1, [.sessionQuery])
          | some pw =>
            if (drop_privileges w).1 = false then
              (.exited 3, .sessionQuery :: (drop_privileges w).2)
            else if fwait then
              if w.forkOk = false then
                (.exited 4, .sessionQuery :: (drop_privileges w).2)
              else if w.waitpidOk = false then
                (.exited 1,
                 .sessionQuery :: (drop_privileges w).2 ++
                   [.forkCall,
                    .execCall (cmd.headD "") cmd (setup_environment pw w.callerEnv),
                    .waitCall])
              else
                (.exited (waitStatusExit (if w.execOk then w.childStatus else .exited 4)),
                 .sessionQuery :: (drop_privileges w).2 ++
                   [.forkCall,
                    .execCall (cmd.headD "") cmd (setup_environment pw w.callerEnv),
                    .waitCall])
            else if w.execOk then
              (.replaced (cmd.headD "") cmd (setup_environment pw w.callerEnv),
               .sessionQuery :: (drop_privileges w).2 ++
                 [.execCall (cmd.headD "") cmd (setup_environment pw w.callerEnv)])
            else (.exited 4, .sessionQuery :: (drop_privileges w).2)

/-! ### Windows program model (src/windows/main.c) -/

/-- ULONG_MAX: `unsigned long` is 32 bits on the platform. -/
def ulongMax : Nat := 4294967295

/-- Base-10 digit-run consumption: accumulated value and the rest after the
last digit. -/
def digitsAux : Nat → List Char → Nat × List Char
  | acc, [] => (acc, [])
  | acc, c :: cs =>
    if c.isDigit then digitsAux (acc * 10 + (c.toNat - 48)) cs else (acc, c :: cs)

/-- Leading-whitespace skip performed by the C numeric conversion. -/
def skipSpaces : List Char → List Char
  | [] => []
  | c :: cs =>
    if c = ' ' ∨ c = '\t' ∨ c = '\n' ∨ c = '\r' then skipSpaces cs
    else c :: cs

/-- Does the list start with a decimal digit? -/
def digitsStart : List Char → Bool
  | [] => false
  | c :: _ => c.isDigit

/-- Unsigned-long negation: the value of a minus-signed subject sequence is
the negation of the magnitude, taken modulo 2^32. -/
def ulNeg (v : Nat) : Nat := (ulongMax + 1 - v % (ulongMax + 1)) % (ulongMax + 1)

/-- Modelled from the C standard semantics of the library function
`wcstoul(s, &endPtr, 10)`, which the source calls at line 303 and whose code
is not part of this repository: skip leading whitespace, accept one optional
sign, then a nonempty digit run; no digit run means no conversion (`none`,
i.e. `endPtr == s`); the converted magnitude saturates to ULONG_MAX on
overflow, and a minus sign negates modulo 2^32.  Returns the value and the
characters after the last digit (`endPtr`). -/
def wcstoul10 (s : List Char) : Option (Nat × List Char) :=
  match skipSpaces s with
  | '-' :: u =>
    if digitsStart u then
      some (if (digitsAux 0 u).1 > ulongMax then ulongMax else ulNeg (digitsAux 0 u).1,
            (digitsAux 0 u).2)
    else none
  | '+' :: u =>
    if digitsStart u then
      some (if (digitsAux 0 u).1 > ulongMax then ulongMax else (digitsAux 0 u).1,
            (digitsAux 0 u).2)
    else none
  | u =>
    if digitsStart u then
      some (if (digitsAux 0 u).1 > ulongMax then ulongMax else (digitsAux 0 u).1,
            (digitsAux 0 u).2)
    else none

/-- The --session argument check (lines 302-308): reject when no conversion
was performed (`endPtr == argv[i+1]`) or when characters remain after the
number (`*endPtr != 0`); otherwise the session id is the converted value
(the DWORD cast is the identity since the value is already below 2^32). -/
def sessionIdArg (s : String) : Option Nat :=
  match wcstoul10 s.toList with
  | none => none
  | some (v, rest) => if rest = [] then some v else none

/-- Flag parsing of `wmain` (lines 291-325): --wait, --session <id>, --help;
the first other token starts the command; a missing command, a missing
session argument and a malformed session argument all exit 5. -/
inductive WinParse where
  | help
  | usageErr
  | go (fwait : Bool) (sess : Option Nat) (cmd : List String)
deriving DecidableEq, Repr

def parseWinFlags : Bool → Option Nat → List String → WinParse
  | _, _, [] => .usageErr
  | w, s, a :: rest =>
    if a = "--wait" then parseWinFlags true s rest
    else if a = "--session" then
      match rest with
      | [] => .usageErr
      | v :: rest2 =>
        match sessionIdArg v with
        | none => .usageErr
        | some n => parseWinFlags w (some n) rest2
    else if a = "--help" ∨ a = "-h" then .help
    else .go w s (a :: rest)

/-- Outcome of `WTSQueryUserToken` (lines 349-362). -/
inductive TokenRes where
  | ok
  | privNotHeld
  | noToken
  | otherErr
deriving DecidableEq, Repr

/-- Externally visible actions of the Windows program, in order. -/
inductive WEv where
  | consoleQuery
  | enumQuery
  | tokenQuery (sid : Nat)
  | dupToken
  | createEnvB
  | createProc (cmdLine : List Char)
  | waitChild
deriving DecidableEq, Repr

/-- Outcomes of the OS calls the Windows program makes, plus its inputs. -/
structure WinWorld where
  /-- argv[1..] -/
  args : List String
  /-- WTSGetActiveConsoleSessionId; none models 0xFFFFFFFF -/
  consoleSession : Option Nat
  /-- WTSEnumerateSessionsW; none models call failure; each entry is
  (SessionId, State == WTSActive) -/
  sessionList : Option (List (Nat × Bool))
  /-- WTSQueryUserToken outcome per session id -/
  tokenFor : Nat → TokenRes
  /-- DuplicateTokenEx succeeds -/
  dupOk : Bool
  /-- CreateEnvironmentBlock succeeds -/
  envBlockOk : Bool
  /-- CreateProcessAsUserW succeeds -/
  createOk : Bool
  /-- GetExitCodeProcess succeeds -/
  getExitOk : Bool
  /-- the child exit code as reported by GetExitCodeProcess -/
  childCode : Nat

/-- `find_active_session` (lines 78-107): console session id first, else
enumerate and take the first active session.  Also returns the query trace. -/
def find_active_session (w : WinWorld) : Option Nat × List WEv :=
  match w.consoleSession with
  | some sid => (some sid, [.consoleQuery])
  | none =>
    match w.sessionList with
    | none => (none, [.consoleQuery, .enumQuery])
    | some l =>
      match l.find? (fun p => p.2) with
      | some p => (some p.1, [.consoleQuery, .enumQuery])
      | none => (none, [.consoleQuery, .enumQuery])

/-- Steps 2-8 of `wmain` (lines 347-447) for a resolved target session. -/
def winBody (w : WinWorld) (fwait : Bool) (sid : Nat) (cmd : List String)
    (evs : List WEv) : Nat × List WEv :=
  match w.tokenFor sid with
  | .privNotHeld => (3, evs ++ [.tokenQuery sid])
  | .noToken => (3, evs ++ [.tokenQuery sid])
  | .otherErr => (3, evs ++ [.tokenQuery sid])
  | .ok =>
    if w.dupOk = false then (3, evs ++ [.tokenQuery sid, .dupToken])
    else if w.envBlockOk = false then (1, evs ++ [.tokenQuery sid, .dupToken, .createEnvB])
    else if w.createOk = false then (4, evs ++ [.tokenQuery sid, .dupToken, .createEnvB])
    else if fwait then
      ((if w.getExitOk then w.childCode else 1),
       evs ++ [.tokenQuery sid, .dupToken, .createEnvB,
         .createProc (build_command_line (cmd.map String.toList)), .waitChild])
    else
      (0, evs ++ [.tokenQuery sid, .dupToken, .createEnvB,
        .createProc (build_command_line (cmd.map String.toList))])

/-- `wmain` (lines 271-467). -/
def winMain (w : WinWorld) : Nat × List WEv :=
  match parseWinFlags false none w.args with
  | .help => (0, [])
  | .usageErr => (5, [])
  | .go fwait sess cmd =>
    match sess with
    | some sid => winBody w fwait sid cmd []
    | none =>
      match find_active_session w with
      | (some sid, evs) => winBody w fwait sid cmd evs
      | (none, evs) => (2, evs)


/-! ### Helper lemmas about traces -/

theorem drop_privileges_events (w : MacWorld) (e : MacEv)
    (h : e ∈ (drop_privileges w).2) :
    e = .initgroupsCall ∨ e = .setgidCall ∨ e = .setuidCall ∨ e = .setuidRootCheck := by
  unfold drop_privileges at h
  split at h
  · simp at h; tauto
  · split at h
    · simp at h; tauto
    · split at h
      · simp at h; tauto
      · split at h
        · simp at h; tauto
        · simp at h; tauto

/-! ### The claims -/

/-- Claim C2: for every argument vector the OS splitting algorithm decodes
the output of `build_command_line` back to exactly the original vector; a
non-empty argument with no space, tab or double-quote is emitted verbatim;
an empty argument is emitted as an empty quoted pair; a run of N backslashes
before a literal quote becomes 2N+1 backslashes plus the quote; a run of N
trailing backslashes becomes 2N backslashes before the closing quote. -/
theorem claim_C2 :
    (∀ argv : List (List Char), splitCmdLine (build_command_line argv) = argv) ∧
    (∀ a : List Char, a ≠ [] →
      (∀ c ∈ a, ¬(c = ' ') ∧ ¬(c = '\t') ∧ ¬(c = '"')) → encodeArg a = a) ∧
    encodeArg [] = ['"', '"'] ∧
    (∀ (N : Nat) (cs : List Char),
      qbodyAux 0 (List.replicate N '\\' ++ '"' :: cs) =
        List.replicate (2 * N + 1) '\\' ++ '"' :: qbodyAux 0 cs) ∧
    (∀ N : Nat, qbodyAux 0 (List.replicate N '\\') = List.replicate (2 * N) '\\') := by
  refine ⟨splitCmdLine_build_command_line, ?_, rfl, qbodyAux_quote_rule,
    qbodyAux_trailing_rule⟩
  intro a ha hp
  rw [encodeArg, if_neg (by simp [(needsQuoting_eq_false a).2 ⟨ha, hp⟩])]

/-- Claim C1: `drop_privileges` reports success iff initgroups, setgid and
setuid all succeed, in that order, and the setuid(0) reacquisition attempt
fails; each failing step stops the sequence there; on any failure `main`
exits with code 3 and neither forks nor execs the command. -/
theorem claim_C1 :
    (∀ w : MacWorld,
      (drop_privileges w).1 = true ↔
        (w.initgroupsOk = true ∧ w.setgidOk = true ∧ w.setuidOk = true ∧
         w.regainRootSucceeds = false)) ∧
    (∀ w : MacWorld, (drop_privileges w).1 = true →
      (drop_privileges w).2 =
        [.initgroupsCall, .setgidCall, .setuidCall, .setuidRootCheck]) ∧
    (∀ w : MacWorld, w.initgroupsOk = false →
      (drop_privileges w).2 = [.initgroupsCall]) ∧
    (∀ w : MacWorld, w.initgroupsOk = true → w.setgidOk = false →
      (drop_privileges w).2 = [.initgroupsCall, .setgidCall]) ∧
    (∀ w : MacWorld, w.initgroupsOk = true → w.setgidOk = true → w.setuidOk = false →
      (drop_privileges w).2 = [.initgroupsCall, .setgidCall, .setuidCall]) ∧
    (∀ (w : MacWorld) (fwait : Bool) (cmd : List String) (pw : Passwd)
       (uname : String) (uid gid : Nat),
      parseFlags false false w.args = .cmd fwait false cmd →
      w.isRoot = true →
      w.consoleUser = some (uname, uid, gid) →
      w.cfStringOk = true → uname ≠ "loginwindow" →
      w.pwEntry = some pw →
      (drop_privileges w).1 = false →
      macMain w = (.exited 3, .sessionQuery :: (drop_privileges w).2) ∧
        MacEv.forkCall ∉ (macMain w).2 ∧
        (∀ (p : String) (a : List String) (e : List (String × String)),
          MacEv.execCall p a e ∉ (macMain w).2)) := by
  refine ⟨?_, ?_, ?_, ?_, ?_, ?_⟩
  · intro w
    unfold drop_privileges
    rcases h1 : w.initgroupsOk <;> rcases h2 : w.setgidOk <;>
      rcases h3 : w.setuidOk <;> rcases h4 : w.regainRootSucceeds <;> simp
  · intro w h
    unfold drop_privileges at *
    rcases h1 : w.initgroupsOk <;> rcases h2 : w.setgidOk <;>
      rcases h3 : w.setuidOk <;> rcases h4 : w.regainRootSucceeds <;>
      simp [h1, h2, h3, h4] at h ⊢
  · intro w h1
    simp [drop_privileges, h1]
  · intro w h1 h2
    simp [drop_privileges, h1, h2]
  · intro w h1 h2 h3
    simp [drop_privileges, h1, h2, h3]
  · intro w fwait cmd pw uname uid gid hparse hroot hcu hcf hlw hpw hdrop
    have hmain : macMain w = (.exited 3, .sessionQuery :: (drop_privileges w).2) := by
      unfold macMain
      rw [hparse, hroot, hcu, hcf, hpw]
      simp [hlw, hdrop]
    refine ⟨hmain, ?_, ?_⟩
    · rw [hmain]
      intro hmem
      simp at hmem
      rcases drop_privileges_events w _ hmem with h | h | h | h <;> exact absurd h (by simp)
    · intro p a e
      rw [hmain]
      intro hmem
      simp at hmem
      rcases drop_privileges_events w _ hmem with h | h | h | h <;> exact absurd h (by simp)


theorem find_active_session_events (w : WinWorld) (e : WEv)
    (h : e ∈ (find_active_session w).2) : e = .consoleQuery ∨ e = .enumQuery := by
  unfold find_active_session at h
  rcases hc : w.consoleSession with _ | sid <;> simp only [hc] at h
  · rcases hl : w.sessionList with _ | l <;> simp only [hl] at h
    · simp at h; tauto
    · rcases hf : l.find? (fun p => p.2) with _ | p <;> simp only [hf] at h <;>
        (simp at h; tauto)
  · simp at h; tauto

theorem find_active_session_console (w : WinWorld) :
    WEv.consoleQuery ∈ (find_active_session w).2 := by
  unfold find_active_session
  rcases hc : w.consoleSession with _ | sid <;> simp only [hc]
  · rcases hl : w.sessionList with _ | l <;> simp only [hl]
    · simp
    · rcases hf : l.find? (fun p => p.2) with _ | p <;> simp [hf]
  · simp

theorem winBody_events (w : WinWorld) (fwait : Bool) (sid : Nat) (cmd : List String)
    (e : WEv) (h : e ∈ (winBody w fwait sid cmd []).2) :
    e = .tokenQuery sid ∨ e = .dupToken ∨ e = .createEnvB ∨
      e = .createProc (build_command_line (cmd.map String.toList)) ∨ e = .waitChild := by
  unfold winBody at h
  rcases htok : w.tokenFor sid <;> simp only [htok] at h
  · split at h
    · simp at h; tauto
    · split at h
      · simp at h; tauto
      · split at h
        · simp at h; tauto
        · split at h
          · simp at h; tauto
          · simp at h; tauto
  · simp at h; tauto
  · simp at h; tauto
  · simp at h; tauto

/-- A reference passwd entry for concrete runs. -/
def pwAlice : Passwd :=
  { pw_name := "alice", pw_uid := 501, pw_gid := 20,
    pw_dir := "/Users/alice", pw_shell := "/bin/zsh" }

/-- A macOS world in which every step succeeds. -/
def baseMacWorld : MacWorld :=
  { args := ["id"], isRoot := true, consoleUser := some ("alice", 501, 20),
    cfStringOk := true, selfPath := some "/usr/local/bin/runasuser",
    pwEntry := some pwAlice, initgroupsOk := true, setgidOk := true,
    setuidOk := true, regainRootSucceeds := false, forkOk := true,
    waitpidOk := true, execOk := true, launchctlExecOk := true,
    childStatus := .exited 0, callerEnv := [] }

/-- A Windows world in which every step succeeds. -/
def baseWinWorld : WinWorld :=
  { args := ["whoami"], consoleSession := some 1, sessionList := some [(1, true)],
    tokenFor := fun _ => .ok, dupOk := true, envBlockOk := true,
    createOk := true, getExitOk := true, childCode := 0 }

/-- Claim C3 (amended): in waiting mode normal termination propagates the
child exit code verbatim on both platforms; on the credential platform
death by signal s maps to 128+s, which is outside 0-5 and a deterministic
function of the signal, but it is NOT distinct from every normally-produced
value (a normal exit with code 128+s yields the same program exit code, see
the counterexample); the token platform returns the reported exit code
verbatim with no separate encoding of abnormal termination. -/
theorem claim_C3 :
    (∀ k : Nat, waitStatusExit (.exited k) = k) ∧
    (∀ s : Nat, 1 ≤ s → waitStatusExit (.signaled s) = 128 + s ∧ 5 < 128 + s) ∧
    (∀ (w : MacWorld) (cmd : List String) (pw : Passwd) (uname : String) (uid gid : Nat),
      parseFlags false false w.args = .cmd true false cmd →
      w.isRoot = true → w.consoleUser = some (uname, uid, gid) →
      w.cfStringOk = true → uname ≠ "loginwindow" → w.pwEntry = some pw →
      (drop_privileges w).1 = true → w.forkOk = true → w.waitpidOk = true →
      w.execOk = true →
      (macMain w).1 = .exited (waitStatusExit w.childStatus)) ∧
    (∀ (w : WinWorld) (sid : Nat) (cmd : List String),
      parseWinFlags false none w.args = .go true (some sid) cmd →
      w.tokenFor sid = .ok → w.dupOk = true → w.envBlockOk = true →
      w.createOk = true → w.getExitOk = true →
      (winMain w).1 = w.childCode) := by
  refine ⟨fun k => rfl, fun s hs => ⟨rfl, by omega⟩, ?_, ?_⟩
  · intro w cmd pw uname uid gid hparse hroot hcu hcf hlw hpw hdrop hfork hwp hexec
    unfold macMain
    rw [hparse, hroot, hcu, hcf, hpw]
    simp [hlw, hdrop, hfork, hwp, hexec]
  · intro w sid cmd hparse htok hdup henv hcr hge
    simp only [winMain, hparse, winBody, htok]
    simp [hdup, henv, hcr, hge]

def cw3exit : MacWorld :=
  { baseMacWorld with args := ["--wait", "sh"], childStatus := .exited 130 }

def cw3sig : MacWorld :=
  { baseMacWorld with args := ["--wait", "sh"], childStatus := .signaled 2 }

/-- Claim C3 counterexample: a child that exits normally with code 130 and a
child killed by signal 2 give the program the identical exit outcome 130, so
the signal-death exit code is not distinct from every value a
normally-exiting child can produce. -/
theorem claim_C3_cex :
    macMain cw3exit = macMain cw3sig ∧ (macMain cw3exit).1 = .exited 130 := by decide

/-- Claim C4 (amended): on the credential platform every sentinel
no-session report (NULL console user, CFString conversion failure, or the
loginwindow sentinel) exits with code 2 having performed only the session
query - no privilege syscall, no fork, no exec; on the token platform a
failed active-session discovery exits 2 with only query events, but the
"no user is logged into the target session" condition is reported by token
acquisition and exits 3 (not 2), likewise without any process creation. -/
theorem claim_C4 :
    (∀ (w : MacWorld) (fwait fsession : Bool) (cmd : List String),
      parseFlags false false w.args = .cmd fwait fsession cmd →
      w.isRoot = true → w.consoleUser = none →
      macMain w = (.exited 2, [.sessionQuery])) ∧
    (∀ (w : MacWorld) (fwait fsession : Bool) (cmd : List String)
       (uname : String) (uid gid : Nat),
      parseFlags false false w.args = .cmd fwait fsession cmd →
      w.isRoot = true → w.consoleUser = some (uname, uid, gid) →
      (w.cfStringOk = false ∨ uname = "loginwindow") →
      macMain w = (.exited 2, [.sessionQuery])) ∧
    (∀ (w : WinWorld) (fwait : Bool) (cmd : List String) (evs : List WEv),
      parseWinFlags false none w.args = .go fwait none cmd →
      find_active_session w = (none, evs) →
      winMain w = (2, evs) ∧ (∀ sid : Nat, WEv.tokenQuery sid ∉ evs) ∧
        (∀ cl : List Char, WEv.createProc cl ∉ evs)) ∧
    (∀ (w : WinWorld) (fwait : Bool) (cmd : List String) (sid : Nat) (evs : List WEv),
      parseWinFlags false none w.args = .go fwait none cmd →
      find_active_session w = (some sid, evs) →
      w.tokenFor sid = .noToken →
      winMain w = (3, evs ++ [.tokenQuery sid])) := by
  refine ⟨?_, ?_, ?_, ?_⟩
  · intro w fwait fsession cmd hparse hroot hcu
    unfold macMain
    rw [hparse, hroot, hcu]
    simp
  · intro w fwait fsession cmd uname uid gid hparse hroot hcu hsent
    unfold macMain
    rw [hparse, hroot, hcu]
    rcases hsent with h | h <;> simp [h]
  · intro w fwait cmd evs hparse hfind
    have hmain : winMain w = (2, evs) := by
      simp only [winMain, hparse, hfind]
    refine ⟨hmain, ?_, ?_⟩
    · intro sid hmem
      have hx : WEv.tokenQuery sid ∈ (find_active_session w).2 := by
        rw [hfind]; exact hmem
      rcases find_active_session_events w _ hx with h | h <;> simp at h
    · intro cl hmem
      have hx : WEv.createProc cl ∈ (find_active_session w).2 := by
        rw [hfind]; exact hmem
      rcases find_active_session_events w _ hx with h | h <;> simp at h
  · intro w fwait cmd sid evs hparse hfind htok
    simp [winMain, hparse, hfind, winBody, htok]

def cw4 : WinWorld := { baseWinWorld with tokenFor := fun _ => .noToken }

/-- Claim C4 counterexample: with an active console session whose token query
reports that no user is logged in, the program exits 3, not 2. -/
theorem claim_C4_cex :
    winMain cw4 = (3, [.consoleQuery, .tokenQuery 1]) ∧ (winMain cw4).1 ≠ 2 := by decide

/-- Claim C5 (amended): on the credential platform an invocation with a
command but without root exits with code 1 with an empty action trace - in
particular before any session query, with nothing retried; on the token
platform missing rights are only detected when token acquisition fails with
privilege-not-held, which exits 3 (not 1) after session discovery has
already run. -/
theorem claim_C5 :
    (∀ (w : MacWorld) (fwait fsession : Bool) (cmd : List String),
      parseFlags false false w.args = .cmd fwait fsession cmd →
      w.isRoot = false →
      macMain w = (.exited 1, [])) ∧
    (∀ (w : WinWorld) (fwait : Bool) (cmd : List String) (sid : Nat) (evs : List WEv),
      parseWinFlags false none w.args = .go fwait none cmd →
      find_active_session w = (some sid, evs) →
      w.tokenFor sid = .privNotHeld →
      winMain w = (3, evs ++ [.tokenQuery sid]) ∧ WEv.consoleQuery ∈ evs) := by
  constructor
  · intro w fwait fsession cmd hparse hroot
    unfold macMain
    rw [hparse, hroot]
    simp
  · intro w fwait cmd sid evs hparse hfind htok
    constructor
    · simp [winMain, hparse, hfind, winBody, htok]
    · have hx := find_active_session_console w
      rw [hfind] at hx
      exact hx

def cw5 : WinWorld := { baseWinWorld with tokenFor := fun _ => .privNotHeld }

/-- Claim C5 counterexample: on the token platform an invocation lacking the
required rights exits 3 (not 1) and the session query has already happened,
refuting "exits with code 1 before attempting session discovery". -/
theorem claim_C5_cex :
    winMain cw5 = (3, [.consoleQuery, .tokenQuery 1]) ∧ (winMain cw5).1 ≠ 1 ∧
      WEv.consoleQuery ∈ (winMain cw5).2 := by decide


theorem envLookup_envSet_self :
    ∀ (e : List (String × String)) (k v : String),
      envLookup k (envSet e k v) = some v := by
  intro e
  induction e with
  | nil => intro k v; simp [envSet, envLookup]
  | cons p e ih =>
    intro k v
    rcases p with ⟨k0, v0⟩
    by_cases h : k0 = k
    · simp [envSet, h, envLookup]
    · simp [envSet, h, envLookup, ih]

theorem envLookup_envSet_ne :
    ∀ (e : List (String × String)) (k v k2 : String), k2 ≠ k →
      envLookup k2 (envSet e k v) = envLookup k2 e := by
  intro e
  induction e with
  | nil =>
    intro k v k2 h
    have h2 : ¬(k = k2) := fun hh => h hh.symm
    simp [envSet, envLookup, h2]
  | cons p e ih =>
    intro k v k2 h
    rcases p with ⟨k0, v0⟩
    by_cases h0 : k0 = k
    · subst h0
      have h2 : ¬(k0 = k2) := fun hh => h hh.symm
      simp [envSet, envLookup, h2]
    · simp only [envSet, if_neg h0, envLookup]
      by_cases h2 : k0 = k2
      · simp [h2]
      · simp [h2, ih k v k2 h]

/-- Claim C6 (amended): before launch the child environment binds HOME,
USER, LOGNAME and SHELL to the target user passwd values and PATH to the
fixed DEFAULT_PATH list, and the launch hands exactly
`setup_environment pw callerEnv` to the child; however every other variable
of the elevated caller environment is inherited unchanged, so the
no-leak property of the original claim fails (see the counterexample). -/
theorem claim_C6 :
    (∀ (pw : Passwd) (env : List (String × String)),
      envLookup "HOME" (setup_environment pw env) = some pw.pw_dir ∧
      envLookup "USER" (setup_environment pw env) = some pw.pw_name ∧
      envLookup "LOGNAME" (setup_environment pw env) = some pw.pw_name ∧
      envLookup "SHELL" (setup_environment pw env) = some pw.pw_shell ∧
      envLookup "PATH" (setup_environment pw env) = some DEFAULT_PATH) ∧
    (∀ (pw : Passwd) (env : List (String × String)) (k : String),
      k ≠ "HOME" → k ≠ "USER" → k ≠ "LOGNAME" → k ≠ "SHELL" → k ≠ "PATH" →
      envLookup k (setup_environment pw env) = envLookup k env) ∧
    (∀ (w : MacWorld) (cmd : List String) (pw : Passwd) (uname : String) (uid gid : Nat),
      parseFlags false false w.args = .cmd false false cmd →
      w.isRoot = true → w.consoleUser = some (uname, uid, gid) →
      w.cfStringOk = true → uname ≠ "loginwindow" → w.pwEntry = some pw →
      (drop_privileges w).1 = true → w.execOk = true →
      (macMain w).1 = .replaced (cmd.headD "") cmd (setup_environment pw w.callerEnv)) := by
  refine ⟨?_, ?_, ?_⟩
  · intro pw env
    unfold setup_environment
    refine ⟨?_, ?_, ?_, ?_, ?_⟩
    · rw [envLookup_envSet_ne _ _ _ _ (by decide), envLookup_envSet_ne _ _ _ _ (by decide),
        envLookup_envSet_ne _ _ _ _ (by decide), envLookup_envSet_ne _ _ _ _ (by decide),
        envLookup_envSet_self]
    · rw [envLookup_envSet_ne _ _ _ _ (by decide), envLookup_envSet_ne _ _ _ _ (by decide),
        envLookup_envSet_ne _ _ _ _ (by decide), envLookup_envSet_self]
    · rw [envLookup_envSet_ne _ _ _ _ (by decide), envLookup_envSet_ne _ _ _ _ (by decide),
        envLookup_envSet_self]
    · rw [envLookup_envSet_ne _ _ _ _ (by decide), envLookup_envSet_self]
    · rw [envLookup_envSet_self]
  · intro pw env k h1 h2 h3 h4 h5
    unfold setup_environment
    rw [envLookup_envSet_ne _ _ _ _ h5, envLookup_envSet_ne _ _ _ _ h4,
      envLookup_envSet_ne _ _ _ _ h3, envLookup_envSet_ne _ _ _ _ h2,
      envLookup_envSet_ne _ _ _ _ h1]
  · intro w cmd pw uname uid gid hparse hroot hcu hcf hlw hpw hdrop hexec
    unfold macMain
    rw [hparse, hroot, hcu, hcf, hpw]
    simp [hlw, hdrop, hexec]

def cw6a : MacWorld := { baseMacWorld with callerEnv := [("SUDO_TOKEN", "s3cret")] }

/-- Claim C6 counterexample: two invocations that differ only in the
elevated caller environment hand the child different environments - a
variable the caller sets (here SUDO_TOKEN) survives `setup_environment`
untouched and leaks into the child, refuting the no-leak hyperproperty. -/
theorem claim_C6_cex :
    envLookup "SUDO_TOKEN" (setup_environment pwAlice [("SUDO_TOKEN", "s3cret")]) =
      some "s3cret" ∧
    envLookup "SUDO_TOKEN" (setup_environment pwAlice []) = none ∧
    (macMain cw6a).1 ≠ (macMain baseMacWorld).1 := by decide

/-- Claim C7: with the namespace-indirection flag, the program builds
`launchctl asuser <uid> <self> [--wait] <command...>` (the --session flag
stripped, the --wait flag forwarded unchanged), forks and execs that helper,
waits for it regardless of the outer --wait value, and maps its termination
exactly like waiting mode: exit code verbatim, signal s to 128+s. -/
theorem claim_C7 :
    ∀ (w : MacWorld) (fwait : Bool) (cmd : List String) (uname sp : String) (uid gid : Nat),
      parseFlags false false w.args = .cmd fwait true cmd →
      w.isRoot = true →
      w.consoleUser = some (uname, uid, gid) →
      w.cfStringOk = true → uname ≠ "loginwindow" →
      w.selfPath = some sp →
      w.forkOk = true → w.waitpidOk = true → w.launchctlExecOk = true →
      macMain w =
        (.exited (waitStatusExit w.childStatus),
         [.sessionQuery, .forkCall,
          .execCall "launchctl"
            (["launchctl", "asuser", toString uid, sp] ++
              (if fwait then ["--wait"] else []) ++ cmd) w.callerEnv,
          .waitCall]) ∧
      (∀ k : Nat, waitStatusExit (.exited k) = k) ∧
      (∀ s : Nat, waitStatusExit (.signaled s) = 128 + s) := by
  intro w fwait cmd uname sp uid gid hparse hroot hcu hcf hlw hsp hfork hwp hlc
  refine ⟨?_, fun k => rfl, fun s => rfl⟩
  unfold macMain handle_session
  rw [hparse, hroot, hcu, hsp]
  simp [hcf, hlw, hfork, hwp, hlc]

def cw7 : MacWorld :=
  { baseMacWorld with
    args := ["--session", "open", "-a", "Safari"],
    childStatus := .exited 7 }

theorem claim_C7_witness :
    macMain cw7 =
      (.exited 7,
       [.sessionQuery, .forkCall,
        .execCall "launchctl"
          ["launchctl", "asuser", "501", "/usr/local/bin/runasuser", "open", "-a", "Safari"]
          [],
        .waitCall]) ∧
    (∀ k : Nat, waitStatusExit (.exited k) = k) ∧
    (∀ s : Nat, waitStatusExit (.signaled s) = 128 + s) := by
  have h := claim_C7 cw7 false ["open", "-a", "Safari"] "alice" "/usr/local/bin/runasuser"
    501 20 rfl rfl rfl rfl (by decide) rfl rfl rfl rfl
  refine ⟨?_, h.2.1, h.2.2⟩
  rw [h.1]
  decide


/-- Claim C8 (amended): an explicit --session target skips discovery
entirely (no console query, no enumeration) and identity is resolved for
that target directly; but an unknown numeric target fails at token
acquisition with exit code 3, and a malformed target string is a usage
error with exit code 5 - neither produces the no-session exit code 2. -/
theorem claim_C8 :
    (∀ (w : WinWorld) (fwait : Bool) (sid : Nat) (cmd : List String),
      parseWinFlags false none w.args = .go fwait (some sid) cmd →
      winMain w = winBody w fwait sid cmd [] ∧
        WEv.consoleQuery ∉ (winMain w).2 ∧ WEv.enumQuery ∉ (winMain w).2) ∧
    (∀ (w : WinWorld) (fwait : Bool) (sid : Nat) (cmd : List String),
      parseWinFlags false none w.args = .go fwait (some sid) cmd →
      w.tokenFor sid = .noToken →
      winMain w = (3, [.tokenQuery sid])) ∧
    (∀ (v : String) (fw : Bool) (so : Option Nat) (rest : List String),
      sessionIdArg v = none →
      parseWinFlags fw so ("--session" :: v :: rest) = .usageErr) ∧
    (∀ w : WinWorld, parseWinFlags false none w.args = .usageErr →
      winMain w = (5, [])) := by
  refine ⟨?_, ?_, ?_, ?_⟩
  · intro w fwait sid cmd hparse
    have hmain : winMain w = winBody w fwait sid cmd [] := by
      simp only [winMain, hparse]
    refine ⟨hmain, ?_, ?_⟩
    · intro hmem
      rw [hmain] at hmem
      rcases winBody_events w fwait sid cmd _ hmem with h | h | h | h | h <;> simp at h
    · intro hmem
      rw [hmain] at hmem
      rcases winBody_events w fwait sid cmd _ hmem with h | h | h | h | h <;> simp at h
  · intro w fwait sid cmd hparse htok
    simp [winMain, hparse, winBody, htok]
  · intro v fw so rest h
    simp [parseWinFlags, h]
  · intro w hparse
    simp [winMain, hparse]

def cw8 : WinWorld :=
  { baseWinWorld with
    args := ["--session", "9999", "cmd.exe"],
    tokenFor := fun _ => .noToken }

/-- Claim C8 counterexample: an unknown explicit session target (9999, with
no user token available for it) makes the program exit 3, not the claimed
no-session code 2. -/
theorem claim_C8_cex :
    winMain cw8 = (3, [.tokenQuery 9999]) ∧ (winMain cw8).1 ≠ 2 := by decide

/-- Claim C9: in non-waiting mode the credential platform replaces the
process image with the command (no fork, no wait - the command simply
continues in place of the program), while the token platform creates the
process, exits 0 immediately and never waits on the child; on both
platforms a failed exec / failed process creation exits with code 4. -/
theorem claim_C9 :
    (∀ (w : MacWorld) (cmd : List String) (pw : Passwd) (uname : String) (uid gid : Nat),
      parseFlags false false w.args = .cmd false false cmd →
      w.isRoot = true → w.consoleUser = some (uname, uid, gid) →
      w.cfStringOk = true → uname ≠ "loginwindow" → w.pwEntry = some pw →
      (drop_privileges w).1 = true → w.execOk = true →
      (macMain w).1 = .replaced (cmd.headD "") cmd (setup_environment pw w.callerEnv) ∧
        MacEv.forkCall ∉ (macMain w).2 ∧ MacEv.waitCall ∉ (macMain w).2) ∧
    (∀ (w : MacWorld) (cmd : List String) (pw : Passwd) (uname : String) (uid gid : Nat),
      parseFlags false false w.args = .cmd false false cmd →
      w.isRoot = true → w.consoleUser = some (uname, uid, gid) →
      w.cfStringOk = true → uname ≠ "loginwindow" → w.pwEntry = some pw →
      (drop_privileges w).1 = true → w.execOk = false →
      (macMain w).1 = .exited 4) ∧
    (∀ (w : WinWorld) (sid : Nat) (cmd : List String),
      parseWinFlags false none w.args = .go false (some sid) cmd →
      w.tokenFor sid = .ok → w.dupOk = true → w.envBlockOk = true → w.createOk = true →
      winMain w = (0, [.tokenQuery sid, .dupToken, .createEnvB,
        .createProc (build_command_line (cmd.map String.toList))]) ∧
        WEv.waitChild ∉ (winMain w).2) ∧
    (∀ (w : WinWorld) (sid : Nat) (cmd : List String),
      parseWinFlags false none w.args = .go false (some sid) cmd →
      w.tokenFor sid = .ok → w.dupOk = true → w.envBlockOk = true → w.createOk = false →
      winMain w = (4, [.tokenQuery sid, .dupToken, .createEnvB])) := by
  refine ⟨?_, ?_, ?_, ?_⟩
  · intro w cmd pw uname uid gid hparse hroot hcu hcf hlw hpw hdrop hexec
    have hmain : macMain w =
        (.replaced (cmd.headD "") cmd (setup_environment pw w.callerEnv),
         .sessionQuery :: (drop_privileges w).2 ++
           [.execCall (cmd.headD "") cmd (setup_environment pw w.callerEnv)]) := by
      unfold macMain
      rw [hparse, hroot, hcu, hcf, hpw]
      simp [hlw, hdrop, hexec]
    refine ⟨by rw [hmain], ?_, ?_⟩
    · rw [hmain]
      intro hmem
      simp at hmem
      rcases drop_privileges_events w _ hmem with h | h | h | h <;> simp at h
    · rw [hmain]
      intro hmem
      simp at hmem
      rcases drop_privileges_events w _ hmem with h | h | h | h <;> simp at h
  · intro w cmd pw uname uid gid hparse hroot hcu hcf hlw hpw hdrop hexec
    unfold macMain
    rw [hparse, hroot, hcu, hcf, hpw]
    simp [hlw, hdrop, hexec]
  · intro w sid cmd hparse htok hdup henv hcr
    have hmain : winMain w = (0, [.tokenQuery sid, .dupToken, .createEnvB,
        .createProc (build_command_line (cmd.map String.toList))]) := by
      simp [winMain, hparse, winBody, htok, hdup, henv, hcr]
    refine ⟨hmain, ?_⟩
    rw [hmain]
    simp
  · intro w sid cmd hparse htok hdup henv hcr
    simp [winMain, hparse, winBody, htok, hdup, henv, hcr]

/-- Claim C10: the --session argument is accepted whenever the whole string
converts as a base-10 unsigned long: "-1" is not a usage error but wraps
modulo 2^32 to session id 4294967295; values above ULONG_MAX saturate to
4294967295; acceptance is exactly "some digits were converted and nothing
follows them", so only strings with a non-numeric prefix or trailing
non-digit characters are rejected as the usage error (exit code 5). -/
theorem claim_C10 :
    sessionIdArg "-1" = some 4294967295 ∧
    sessionIdArg "4294967296" = some 4294967295 ∧
    parseWinFlags false none ["--session", "-1", "cmd"] =
      .go false (some 4294967295) ["cmd"] ∧
    (∀ (s : String) (v : Nat),
      wcstoul10 s.toList = some (v, []) → sessionIdArg s = some v) ∧
    (∀ (s : String) (v : Nat),
      sessionIdArg s = some v → wcstoul10 s.toList = some (v, [])) ∧
    sessionIdArg "12x" = none ∧ sessionIdArg "x12" = none ∧ sessionIdArg "" = none ∧
    (∀ (v : String) (fw : Bool) (so : Option Nat) (rest : List String) (n : Nat),
      sessionIdArg v = some n →
      parseWinFlags fw so ("--session" :: v :: rest) = parseWinFlags fw (some n) rest) ∧
    (∀ (v : String) (fw : Bool) (so : Option Nat) (rest : List String),
      sessionIdArg v = none →
      parseWinFlags fw so ("--session" :: v :: rest) = .usageErr) := by
  refine ⟨by decide, by decide, by decide, ?_, ?_, by decide, by decide, by decide, ?_, ?_⟩
  · intro s v h
    unfold sessionIdArg
    rw [h]
    simp
  · intro s v h
    unfold sessionIdArg at h
    rcases hw : wcstoul10 s.toList with _ | p <;> simp only [hw] at h
    · exact absurd h (by simp)
    · rcases p with ⟨v2, rest⟩
      by_cases hr : rest = []
      · subst hr
        simp at h
        subst h
        rfl
      · simp [hr] at h
  · intro v fw so rest n h
    simp [parseWinFlags, h]
  · intro v fw so rest h
    simp [parseWinFlags, h]

end RunAsUser
